import Mathlib

/-!
Verification of the code-set reconciliation and accuracy-scoring engine of a
medical-coding backend (src/index.js). The embedded core is the function
`calculateAccuracy` (lines 272-338), the list-field coercion inside
`extractCodesFromText` (lines 911-914), and the guard of the
submit-corrections operation (lines 670-678).

Conventions of the embedding:
- JS strings are `String`; a scalar field that is absent or defaulted by
  `|| ''` is the empty string (the spec states empty string means absent).
- JS arrays of codes are `List String`.
- The aggregate percentage, computed in JS floating point as
  `Math.round(accuracy * 100) / 100`, is embedded over `ℚ` with
  `Math.round x = ⌊x + 1/2⌋` (round half toward positive infinity); all
  numerators and denominators involved are small naturals, so the rational
  model agrees with the float computation on every input considered here.
- A JS property access on `undefined`/`null` throws; the wrapper
  `calculateAccuracyJS` over `Option` arguments returns `Except.error` in
  that case, and the route handler catch-block is the `serverError` branch.
-/

/-- Scalar-field comparison record (the `admit_dx`, `pdx`, `modifier`
entries of `details` in `calculateAccuracy`). The JS field `match` is
called `match'` here because `match` is a Lean keyword. -/
structure FieldComparison where
  ai : String
  user : String
  match' : Bool
  deriving DecidableEq

/-- List-field comparison record (the `sdx` and `cpt` entries of
`details` in `calculateAccuracy`). -/
structure SetComparison where
  ai : List String
  user : List String
  matches' : List String
  additions : List String
  removals : List String
  deriving DecidableEq

/-- The `details` object assembled by `calculateAccuracy`. -/
structure Details where
  admit_dx : FieldComparison
  pdx : FieldComparison
  sdx : SetComparison
  cpt : SetComparison
  modifier : FieldComparison
  deriving DecidableEq

/-- The value returned by `calculateAccuracy`:
`{ percentage: Math.round(accuracy * 100) / 100, details }`. -/
structure AccuracyReport where
  percentage : ℚ
  details : Details
  deriving DecidableEq

/-- A coding result after defaulting: scalar fields with `|| ''` applied
(empty string = absent), list fields with the `Array.isArray` check applied
(non-array = empty list). -/
structure CodingResult where
  admit_dx : String
  pdx : String
  sdx : List String
  cpt : List String
  modifier : String
  deriving DecidableEq

/-- One scalar-field block of `calculateAccuracy` (lines 284-290, 292-298,
300-306 are three copies of this shape). Returns the `details` entry and
the increments to `totalFields` and `correctFields`. The JS guard
`aiCodes.x || userCodes.x` is string truthiness: at least one side
non-empty. -/
def scalarCompare (a u : String) : FieldComparison × Nat × Nat :=
  if a ≠ "" ∨ u ≠ "" then
    if a = u then ({ ai := a, user := u, match' := true }, 1, 1)
    else ({ ai := a, user := u, match' := false }, 1, 0)
  else ({ ai := a, user := u, match' := false }, 0, 0)

/-- One list-field block of `calculateAccuracy` (lines 308-314 for `sdx`,
lines 322-328 for `cpt`): `matches' = ai.filter(c => user.includes(c))`,
`additions = user.filter(c => !ai.includes(c))`,
`removals = ai.filter(c => !user.includes(c))`. -/
def setCompare (aiL userL : List String) : SetComparison :=
  { ai := aiL
    user := userL
    matches' := aiL.filter (fun c => userL.contains c)
    additions := userL.filter (fun c => !(aiL.contains c))
    removals := aiL.filter (fun c => !(userL.contains c)) }

/-- The accuracy contribution of one list-field block (lines 316-320,
330-334): when either side is non-empty, `totalFields` grows by
`new Set([...ai, ...user]).size` (the number of distinct codes in the
concatenation) and `correctFields` grows by `matches'.length`. -/
def setContrib (aiL userL : List String) : Nat × Nat :=
  if aiL.length > 0 ∨ userL.length > 0 then
    ((aiL ++ userL).dedup.length, (setCompare aiL userL).matches'.length)
  else (0, 0)

/-- The final value of the `totalFields` accumulator of
`calculateAccuracy`: the sum of the denominator contributions of the three
scalar blocks and the two list blocks. -/
def totalFields (aiCodes userCodes : CodingResult) : Nat :=
  (scalarCompare aiCodes.admit_dx userCodes.admit_dx).2.1 +
  (scalarCompare aiCodes.pdx userCodes.pdx).2.1 +
  (scalarCompare aiCodes.modifier userCodes.modifier).2.1 +
  (setContrib aiCodes.sdx userCodes.sdx).1 +
  (setContrib aiCodes.cpt userCodes.cpt).1

/-- The final value of the `correctFields` accumulator of
`calculateAccuracy`. -/
def correctFields (aiCodes userCodes : CodingResult) : Nat :=
  (scalarCompare aiCodes.admit_dx userCodes.admit_dx).2.2 +
  (scalarCompare aiCodes.pdx userCodes.pdx).2.2 +
  (scalarCompare aiCodes.modifier userCodes.modifier).2.2 +
  (setContrib aiCodes.sdx userCodes.sdx).2 +
  (setContrib aiCodes.cpt userCodes.cpt).2

/-- `calculateAccuracy` (src/index.js lines 272-338):
`accuracy = totalFields > 0 ? (correctFields / totalFields) * 100 : 100`,
`percentage = Math.round(accuracy * 100) / 100`. -/
def calculateAccuracy (aiCodes userCodes : CodingResult) : AccuracyReport :=
  let t := totalFields aiCodes userCodes
  let c := correctFields aiCodes userCodes
  let accuracy : ℚ := if 0 < t then ((c : ℚ) / (t : ℚ)) * 100 else 100
  { percentage := ((⌊accuracy * 100 + 1/2⌋ : ℤ) : ℚ) / 100
    details :=
      { admit_dx := (scalarCompare aiCodes.admit_dx userCodes.admit_dx).1
        pdx := (scalarCompare aiCodes.pdx userCodes.pdx).1
        sdx := setCompare aiCodes.sdx userCodes.sdx
        cpt := setCompare aiCodes.cpt userCodes.cpt
        modifier := (scalarCompare aiCodes.modifier userCodes.modifier).1 } }

/-- Rounding to two decimal places as the spec describes it:
`round2 q` with `Math.round` semantics over the rationals. -/
def round2 (q : ℚ) : ℚ :=
  ((⌊q * 100 + 1/2⌋ : ℤ) : ℚ) / 100

/-- The all-absent coding result of the spec: every scalar field empty,
every list field empty. -/
def emptyResult : CodingResult :=
  { admit_dx := "", pdx := "", sdx := [], cpt := [], modifier := "" }

/-- The shape a raw list field can arrive in before coercion inside
`extractCodesFromText` (lines 911-914): an array, a string, or absent. -/
inductive RawListField where
  | arr (l : List String)
  | str (s : String)
  | absent
  deriving DecidableEq

/-- The JS `String.prototype.trim` of the source, on the character list of
a string: drop whitespace from both ends. Written as a structural
recursion so that it evaluates inside the kernel. -/
def trimChars (cs : List Char) : List Char :=
  ((cs.dropWhile Char.isWhitespace).reverse.dropWhile Char.isWhitespace).reverse

/-- The JS `String.prototype.split` with the one-character separator `','`,
on the character list of a string: `split` of the empty string is one empty
group, and every separator character opens a new group. -/
def splitComma : List Char → List (List Char)
  | [] => [[]]
  | c :: rest =>
      match splitComma rest with
      | [] => if c = ',' then [[], [c]] else [[c]]
      | g :: gs => if c = ',' then [] :: g :: gs else (c :: g) :: gs

/-- Lines 911-914 of `extractCodesFromText`:
`let sdx = result.sdx || [];`
`if (typeof sdx === 'string') sdx = sdx.split(',').map(s => s.trim()).filter(Boolean);`
An absent field defaults to `[]`; an array is used as-is; a non-empty
string is split on commas, each part trimmed, empty parts dropped. The
empty string is falsy in JS, so it is replaced by `[]` before the
`typeof` test. -/
def coerceListField : RawListField → List String
  | RawListField.absent => []
  | RawListField.arr l => l
  | RawListField.str s =>
      if s = "" then []
      else ((splitComma s.data).map (fun cs => String.mk (trimChars cs))).filter
        (fun t => !(t == ""))

/-- The three outcomes of the submit-corrections route (lines 670-708):
the 400 refusal, the success payload carrying the accuracy report, and the
500 catch-all that fires when `calculateAccuracy` throws. -/
inductive SubmitResponse where
  | badRequest (error : String)
  | ok (accuracy : AccuracyReport)
  | serverError
  deriving DecidableEq

/-- JS truthiness of an optional string: `undefined`, `null` and the empty
string are falsy. -/
def isFalsyStr : Option String → Bool
  | none => true
  | some s => s == ""

/-- `calculateAccuracy` as called with possibly-missing arguments: the very
first property access `aiCodes.admit_dx` (line 274) throws a `TypeError`
when the argument is `undefined` or `null`, embedded as `Except.error`. -/
def calculateAccuracyJS :
    Option CodingResult → Option CodingResult → Except Unit AccuracyReport
  | some a, some u => Except.ok (calculateAccuracy a u)
  | _, _ => Except.error ()

/-- The submit-corrections route handler (lines 670-708): refuse with 400
when `document_key` or `corrected` is falsy, otherwise call
`calculateAccuracy(original, corrected)` inside the try-block; a thrown
`TypeError` lands in the catch-block, which answers 500. -/
def submitCorrections (document_key : Option String)
    (original corrected : Option CodingResult) : SubmitResponse :=
  if isFalsyStr document_key || corrected.isNone then
    SubmitResponse.badRequest "document_key and corrected data are required"
  else
    match calculateAccuracyJS original corrected with
    | Except.ok r => SubmitResponse.ok r
    | Except.error _ => SubmitResponse.serverError

/-- The match flag exactly as the spec sentence of claim C6 words it: true
iff both sides are present and textually identical, or both sides are
absent. Spec-side definition, to be compared with the code. -/
def specScalarMatch (a u : String) : Bool :=
  (!(a == "") && !(u == "") && (a == u)) || ((a == "") && (u == ""))

/-- The `additions` sequence as the spec sentence of claim C5 words it:
the set of elements present in `user` but not in `ai`, listed in the
original `user` order (each element once). Spec-side definition. -/
def specAdditions (aiL userL : List String) : List String :=
  (userL.filter (fun c => !(aiL.contains c))).eraseDups

/-- The `removals` sequence as the spec sentence of claim C5 words it:
the set of elements present in `ai` but not in `user`, listed in the
original `ai` order (each element once). Spec-side definition. -/
def specRemovals (aiL userL : List String) : List String :=
  (aiL.filter (fun c => !(userL.contains c))).eraseDups

/-- Claim C1: a scalar field with both sides empty contributes nothing to
the denominator and is not counted as a match; with at least one side
non-empty it adds exactly 1 to the denominator, adds 1 to the numerator
iff the two strings are exactly equal, and records the match flag
accordingly. -/
theorem claim_C1_scalar_contribution (a u : String) :
    ((scalarCompare a u).2.1 = if a = "" ∧ u = "" then 0 else 1)
    ∧ ((scalarCompare a u).2.2 =
        if a = "" ∧ u = "" then 0 else if a = u then 1 else 0)
    ∧ ((scalarCompare a u).1.match' =
        if a = "" ∧ u = "" then false else decide (a = u)) := by
  unfold scalarCompare
  by_cases h1 : a = "" <;> by_cases h2 : u = "" <;> by_cases h3 : a = u <;>
    simp_all

/-- Unfolding of the percentage computed by `calculateAccuracy`. -/
lemma calculateAccuracy_percentage (a u : CodingResult) :
    (calculateAccuracy a u).percentage =
      ((⌊(if 0 < totalFields a u then
            ((correctFields a u : ℚ) / (totalFields a u : ℚ)) * 100
          else 100) * 100 + 1/2⌋ : ℤ) : ℚ) / 100 := rfl

/-- With an empty denominator the source falls back to `accuracy = 100`. -/
lemma percentage_of_totalFields_eq_zero (a u : CodingResult)
    (h : totalFields a u = 0) : (calculateAccuracy a u).percentage = 100 := by
  rw [calculateAccuracy_percentage, h]
  norm_num

/-- With a non-empty denominator the percentage is the rounded ratio. -/
lemma percentage_of_totalFields_ne_zero (a u : CodingResult)
    (h : totalFields a u ≠ 0) :
    (calculateAccuracy a u).percentage =
      round2 (((correctFields a u : ℚ) / (totalFields a u : ℚ)) * 100) := by
  rw [calculateAccuracy_percentage, if_pos (Nat.pos_of_ne_zero h)]
  rfl

/-- A perfect numerator gives exactly 100. -/
lemma percentage_of_correct_eq_total (a u : CodingResult)
    (h : totalFields a u ≠ 0)
    (he : correctFields a u = totalFields a u) :
    (calculateAccuracy a u).percentage = 100 := by
  rw [calculateAccuracy_percentage, if_pos (Nat.pos_of_ne_zero h), he]
  have ht : ((totalFields a u : ℚ) / (totalFields a u : ℚ)) = 1 :=
    div_self (by exact_mod_cast h)
  rw [ht]
  norm_num

/-- Claim C3: with an all-zero denominator the returned percentage is
exactly 100 (in particular for the pair of all-empty results); otherwise
it is numerator over denominator, times 100, rounded to two decimals. -/
theorem claim_C3_vacuous_and_ratio (a u : CodingResult) :
    (totalFields a u = 0 → (calculateAccuracy a u).percentage = 100)
    ∧ (totalFields a u ≠ 0 →
        (calculateAccuracy a u).percentage =
          round2 (((correctFields a u : ℚ) / (totalFields a u : ℚ)) * 100))
    ∧ (calculateAccuracy emptyResult emptyResult).percentage = 100 :=
  ⟨percentage_of_totalFields_eq_zero a u,
   percentage_of_totalFields_ne_zero a u,
   percentage_of_totalFields_eq_zero emptyResult emptyResult (by decide)⟩

/-- Witness for claim C3 at concrete inputs: the all-empty pair scores
100, and a pair with one agreeing and two disagreeing scalar fields scores
the rounded ratio. -/
theorem claim_C3_witness :
    (calculateAccuracy emptyResult emptyResult).percentage = 100
    ∧ (calculateAccuracy
        { admit_dx := "A", pdx := "B", sdx := [], cpt := [], modifier := "C" }
        { admit_dx := "A", pdx := "X", sdx := [], cpt := [], modifier := "Y" }).percentage =
      round2 (((correctFields
        { admit_dx := "A", pdx := "B", sdx := [], cpt := [], modifier := "C" }
        { admit_dx := "A", pdx := "X", sdx := [], cpt := [], modifier := "Y" } : ℚ) /
        (totalFields
        { admit_dx := "A", pdx := "B", sdx := [], cpt := [], modifier := "C" }
        { admit_dx := "A", pdx := "X", sdx := [], cpt := [], modifier := "Y" } : ℚ)) * 100) :=
  ⟨(claim_C3_vacuous_and_ratio emptyResult emptyResult).2.2,
   (claim_C3_vacuous_and_ratio
      { admit_dx := "A", pdx := "B", sdx := [], cpt := [], modifier := "C" }
      { admit_dx := "A", pdx := "X", sdx := [], cpt := [], modifier := "Y" }).2.1
      (by decide)⟩

/-- Counterexample to claim C6: with both sides absent (empty strings) the
spec wording demands `match = true`, but the code records `match = false`
(the guard on line 300 skips the assignment entirely). -/
theorem claim_C6_counterexample :
    specScalarMatch "" "" = true ∧ (scalarCompare "" "").1.match' = false := by
  constructor
  · rfl
  · rfl

/-- Claim C6 as amended: the recorded match flag is true iff both sides
are present (non-empty) and textually identical; a both-absent field is
recorded with `match = false`. -/
theorem claim_C6_amended_match_flag (a u : String) :
    (scalarCompare a u).1.match' = true ↔ (a ≠ "" ∧ u ≠ "" ∧ a = u) := by
  unfold scalarCompare
  by_cases h1 : a = "" <;> by_cases h2 : u = "" <;> by_cases h3 : a = u <;>
    simp_all

/-- Claim C8: the comma-joined string of the spec example coerces to
exactly the two trimmed codes; an absent field defaults to the empty
sequence; and in general the coercion of a string yields a subsequence of
the trimmed comma-parts (order preserved) that contains no empty part. -/
theorem claim_C8_string_coercion :
    coerceListField (RawListField.str "45378, 43235 ,  ") = ["45378", "43235"]
    ∧ coerceListField RawListField.absent = []
    ∧ ∀ s : String,
        (coerceListField (RawListField.str s)).Sublist
          ((splitComma s.data).map (fun cs => String.mk (trimChars cs)))
        ∧ "" ∉ coerceListField (RawListField.str s) := by
  refine ⟨by decide, rfl, ?_⟩
  intro s
  simp only [coerceListField]
  by_cases h : s = ""
  · simp [h, List.nil_sublist]
  · rw [if_neg h]
    refine ⟨List.filter_sublist _, ?_⟩
    intro hmem
    have := (List.mem_filter.mp hmem).2
    simp at this

/-- The `matches` sequence as the spec sentence of claim C5 words it: the
set of elements present in both `ai` and `user`, listed in the original
`ai` order (each element once). Spec-side definition. -/
def specMatches (aiL userL : List String) : List String :=
  (aiL.filter (fun c => userL.contains c)).eraseDups

/-- `includes`-style membership test agrees with list membership. -/
lemma filter_contains_eq (aiL userL : List String) :
    aiL.filter (fun c => userL.contains c) =
      aiL.filter (fun c => decide (c ∈ userL)) := by
  apply List.filter_congr
  intro c _
  simp [List.contains]

/-- The denominator contribution of a list block is the cardinality of the
union of the two sides taken as sets. -/
lemma setContrib_fst (aiL userL : List String) (h : ¬(aiL = [] ∧ userL = [])) :
    (setContrib aiL userL).1 = (aiL.toFinset ∪ userL.toFinset).card := by
  have hcond : aiL.length > 0 ∨ userL.length > 0 := by
    by_cases hA : aiL = []
    · exact Or.inr (List.length_pos.mpr fun hu => h ⟨hA, hu⟩)
    · exact Or.inl (List.length_pos.mpr hA)
  unfold setContrib
  rw [if_pos hcond]
  show (aiL ++ userL).dedup.length = _
  rw [← List.card_toFinset, List.toFinset_append]

/-- With a duplicate-free AI side, the numerator contribution of a list
block is the cardinality of the intersection of the two sides as sets. -/
lemma setContrib_snd (aiL userL : List String) (ha : aiL.Nodup)
    (h : ¬(aiL = [] ∧ userL = [])) :
    (setContrib aiL userL).2 = (aiL.toFinset ∩ userL.toFinset).card := by
  have hcond : aiL.length > 0 ∨ userL.length > 0 := by
    by_cases hA : aiL = []
    · exact Or.inr (List.length_pos.mpr fun hu => h ⟨hA, hu⟩)
    · exact Or.inl (List.length_pos.mpr hA)
  unfold setContrib setCompare
  rw [if_pos hcond]
  simp only
  rw [filter_contains_eq]
  have hnd : (aiL.filter (fun c => decide (c ∈ userL))).Nodup :=
    ha.filter _
  rw [← List.toFinset_card_of_nodup hnd, List.toFinset_filter]
  congr 1
  ext x
  simp [Finset.mem_filter, Finset.mem_inter, List.mem_toFinset]

/-- Counterexample to claim C2: with a duplicated code on the AI side the
numerator grows by `matches.length`, which counts the duplicate twice,
not by the size of the deduplicated intersection. -/
theorem claim_C2_counterexample :
    (setContrib ["A", "A"] ["A"]).2 = 2
    ∧ ((["A", "A"] : List String).toFinset ∩
        (["A"] : List String).toFinset).card = 1
    ∧ (setContrib ["A", "A"] ["A"]).2 ≠
        ((["A", "A"] : List String).toFinset ∩
          (["A"] : List String).toFinset).card := by decide

/-- Claim C2 as amended: for a list field whose AI sequence is
duplicate-free, a non-empty union adds the union cardinality to the
denominator and the intersection cardinality (as sets) to the numerator;
an empty union contributes nothing. -/
theorem claim_C2_amended_set_contribution (aiL userL : List String)
    (ha : aiL.Nodup) :
    (¬(aiL = [] ∧ userL = []) →
        (setContrib aiL userL).1 = (aiL.toFinset ∪ userL.toFinset).card
        ∧ (setContrib aiL userL).2 = (aiL.toFinset ∩ userL.toFinset).card)
    ∧ (aiL = [] ∧ userL = [] → setContrib aiL userL = (0, 0)) := by
  constructor
  · intro h
    exact ⟨setContrib_fst aiL userL h, setContrib_snd aiL userL ha h⟩
  · rintro ⟨rfl, rfl⟩
    rfl

/-- Witness for the amended claim C2 at the set-reconciliation example of
the spec: union size 3, intersection size 1. -/
theorem claim_C2_amended_witness :
    (setContrib ["I10", "E78.5"] ["E78.5", "Z79.01"]).1 =
      ((["I10", "E78.5"] : List String).toFinset ∪
        (["E78.5", "Z79.01"] : List String).toFinset).card
    ∧ (setContrib ["I10", "E78.5"] ["E78.5", "Z79.01"]).2 =
      ((["I10", "E78.5"] : List String).toFinset ∩
        (["E78.5", "Z79.01"] : List String).toFinset).card :=
  (claim_C2_amended_set_contribution ["I10", "E78.5"] ["E78.5", "Z79.01"]
    (by decide)).1 (by decide)

/-- Counterexample to claim C5: duplicated codes in the raw sequences are
kept by the filters, so `matches` and `additions` are not the sets the
spec describes (listed once each); the deduplicated listings differ. -/
theorem claim_C5_counterexample :
    (setCompare ["A", "A"] ["A", "B", "B"]).matches' = ["A", "A"]
    ∧ specMatches ["A", "A"] ["A", "B", "B"] = ["A"]
    ∧ (setCompare ["A", "A"] ["A", "B", "B"]).matches' ≠
        specMatches ["A", "A"] ["A", "B", "B"]
    ∧ (setCompare ["A", "A"] ["A", "B", "B"]).additions = ["B", "B"]
    ∧ specAdditions ["A", "A"] ["A", "B", "B"] = ["B"]
    ∧ (setCompare ["A", "A"] ["A", "B", "B"]).additions ≠
        specAdditions ["A", "A"] ["A", "B", "B"] := by decide

/-- Claim C5 as amended: over duplicate-free inputs the three sequences
are exactly the set differences the spec describes — each is
duplicate-free, preserves the order of its source sequence (is a sublist
of it), and has the membership the spec states. -/
theorem claim_C5_amended_set_listings (aiL userL : List String)
    (ha : aiL.Nodup) (hu : userL.Nodup) :
    ((setCompare aiL userL).matches'.Nodup
      ∧ (setCompare aiL userL).matches'.Sublist aiL
      ∧ ∀ c, c ∈ (setCompare aiL userL).matches' ↔ c ∈ aiL ∧ c ∈ userL)
    ∧ ((setCompare aiL userL).additions.Nodup
      ∧ (setCompare aiL userL).additions.Sublist userL
      ∧ ∀ c, c ∈ (setCompare aiL userL).additions ↔ c ∈ userL ∧ c ∉ aiL)
    ∧ ((setCompare aiL userL).removals.Nodup
      ∧ (setCompare aiL userL).removals.Sublist aiL
      ∧ ∀ c, c ∈ (setCompare aiL userL).removals ↔ c ∈ aiL ∧ c ∉ userL) := by
  simp only [setCompare]
  refine ⟨⟨ha.filter _, List.filter_sublist _, ?_⟩,
          ⟨hu.filter _, List.filter_sublist _, ?_⟩,
          ⟨ha.filter _, List.filter_sublist _, ?_⟩⟩ <;>
    intro c <;> simp [List.mem_filter, List.contains]

/-- Witness for the amended claim C5 at the set-reconciliation example of
the spec. -/
theorem claim_C5_amended_witness :
    (setCompare ["I10", "E78.5"] ["E78.5", "Z79.01"]).matches'.Nodup
    ∧ ("E78.5" ∈ (setCompare ["I10", "E78.5"] ["E78.5", "Z79.01"]).matches' ↔
        ("E78.5" ∈ (["I10", "E78.5"] : List String)
          ∧ "E78.5" ∈ (["E78.5", "Z79.01"] : List String)))
    ∧ ("Z79.01" ∈ (setCompare ["I10", "E78.5"] ["E78.5", "Z79.01"]).additions ↔
        ("Z79.01" ∈ (["E78.5", "Z79.01"] : List String)
          ∧ "Z79.01" ∉ (["I10", "E78.5"] : List String))) :=
  ⟨(claim_C5_amended_set_listings ["I10", "E78.5"] ["E78.5", "Z79.01"]
      (by decide) (by decide)).1.1,
   (claim_C5_amended_set_listings ["I10", "E78.5"] ["E78.5", "Z79.01"]
      (by decide) (by decide)).1.2.2 "E78.5",
   (claim_C5_amended_set_listings ["I10", "E78.5"] ["E78.5", "Z79.01"]
      (by decide) (by decide)).2.1.2.2 "Z79.01"⟩

/-- Comparing a scalar field against itself never scores a miss. -/
lemma scalarCompare_self_snd (x : String) :
    (scalarCompare x x).2.2 = (scalarCompare x x).2.1 := by
  unfold scalarCompare
  split_ifs <;> simp_all

/-- A non-empty scalar field compared against itself counts once. -/
lemma scalarCompare_self_fst (x : String) (h : x ≠ "") :
    (scalarCompare x x).2.1 = 1 := by
  unfold scalarCompare
  rw [if_pos (Or.inl h), if_pos rfl]

/-- A duplicate-free list compared against itself scores all of its
elements: the numerator contribution equals the denominator one. -/
lemma setContrib_self (l : List String) (h : l.Nodup) :
    (setContrib l l).2 = (setContrib l l).1 := by
  unfold setContrib setCompare
  split_ifs with hc
  · simp only
    have hf : l.filter (fun c => l.contains c) = l := by
      rw [filter_contains_eq]
      apply List.filter_eq_self.mpr
      intro a ha
      simpa using ha
    rw [hf, ← List.card_toFinset, List.toFinset_append, Finset.union_self,
      List.toFinset_card_of_nodup h]
  · rfl

/-- A non-empty list compared against itself contributes positively to the
denominator. -/
lemma setContrib_self_fst_pos (l : List String) (h : l ≠ []) :
    0 < (setContrib l l).1 := by
  unfold setContrib
  rw [if_pos (Or.inl (List.length_pos.mpr h))]
  simp only [List.length_pos, ne_eq, List.dedup_eq_nil, List.append_eq_nil]
  exact fun hc => h hc.1

/-- The coding result with a duplicated secondary diagnosis used to refute
claims C4 and C7. -/
def dupResult : CodingResult :=
  { admit_dx := "", pdx := "", sdx := ["X", "X"], cpt := [], modifier := "" }

/-- Counterexample to claim C4: a result with a duplicated code in a list
field, compared against itself, scores 200 percent — the numerator counts
the duplicate twice while the union counts it once. -/
theorem claim_C4_counterexample :
    dupResult.sdx ≠ []
    ∧ (calculateAccuracy dupResult dupResult).percentage ≠ 100
    ∧ (calculateAccuracy dupResult dupResult).percentage = 200 := by
  have h1 : totalFields dupResult dupResult = 1 := by decide
  have h2 : correctFields dupResult dupResult = 2 := by decide
  have hp : (calculateAccuracy dupResult dupResult).percentage = 200 := by
    rw [calculateAccuracy_percentage, h1, h2]
    norm_num
  refine ⟨by decide, ?_, hp⟩
  rw [hp]
  norm_num

/-- Claim C4 as amended: comparing a coding result against itself yields
exactly 100 percent whenever at least one field is non-empty and the two
list fields are duplicate-free. -/
theorem claim_C4_amended_self_is_perfect (r : CodingResult)
    (h1 : r.sdx.Nodup) (h2 : r.cpt.Nodup)
    (h3 : r.admit_dx ≠ "" ∨ r.pdx ≠ "" ∨ r.modifier ≠ ""
      ∨ r.sdx ≠ [] ∨ r.cpt ≠ []) :
    (calculateAccuracy r r).percentage = 100 := by
  have he : correctFields r r = totalFields r r := by
    unfold correctFields totalFields
    rw [scalarCompare_self_snd, scalarCompare_self_snd, scalarCompare_self_snd,
      setContrib_self _ h1, setContrib_self _ h2]
  have ht : totalFields r r ≠ 0 := by
    unfold totalFields
    rcases h3 with h | h | h | h | h
    · have := scalarCompare_self_fst r.admit_dx h
      omega
    · have := scalarCompare_self_fst r.pdx h
      omega
    · have := scalarCompare_self_fst r.modifier h
      omega
    · have := setContrib_self_fst_pos r.sdx h
      omega
    · have := setContrib_self_fst_pos r.cpt h
      omega
  exact percentage_of_correct_eq_total r r ht he

/-- Witness for the amended claim C4: a fully populated duplicate-free
result compared against itself scores 100. -/
theorem claim_C4_amended_witness :
    (calculateAccuracy
      { admit_dx := "J18.9", pdx := "J18.9", sdx := ["I10"],
        cpt := ["99213"], modifier := "25" }
      { admit_dx := "J18.9", pdx := "J18.9", sdx := ["I10"],
        cpt := ["99213"], modifier := "25" }).percentage = 100 :=
  claim_C4_amended_self_is_perfect
    { admit_dx := "J18.9", pdx := "J18.9", sdx := ["I10"],
      cpt := ["99213"], modifier := "25" }
    (by decide) (by decide) (by decide)

/-- A scalar block never adds more to the numerator than to the
denominator. -/
lemma scalarCompare_snd_le (a u : String) :
    (scalarCompare a u).2.2 ≤ (scalarCompare a u).2.1 := by
  unfold scalarCompare
  split_ifs <;> simp

/-- A duplicate-free list that is contained in another list is no longer
than the deduplication of that list. -/
lemma length_le_dedup_of_nodup_subset {l m : List String} (h : l.Nodup)
    (hs : ∀ a ∈ l, a ∈ m) : l.length ≤ m.dedup.length := by
  rw [← List.toFinset_card_of_nodup h, ← List.card_toFinset]
  apply Finset.card_le_card
  intro a ha
  rw [List.mem_toFinset] at ha ⊢
  exact hs a ha

/-- With a duplicate-free AI side, a list block never adds more to the
numerator than to the denominator. -/
lemma setContrib_snd_le (aiL userL : List String) (ha : aiL.Nodup) :
    (setContrib aiL userL).2 ≤ (setContrib aiL userL).1 := by
  unfold setContrib setCompare
  split_ifs with hc
  · simp only
    apply length_le_dedup_of_nodup_subset (ha.filter _)
    intro a hmem
    exact List.mem_append_left _ (List.mem_filter.mp hmem).1
  · exact le_refl 0

/-- With duplicate-free AI list fields the numerator never exceeds the
denominator. -/
lemma correct_le_total (a u : CodingResult)
    (h1 : a.sdx.Nodup) (h2 : a.cpt.Nodup) :
    correctFields a u ≤ totalFields a u := by
  unfold correctFields totalFields
  have s1 := scalarCompare_snd_le a.admit_dx u.admit_dx
  have s2 := scalarCompare_snd_le a.pdx u.pdx
  have s3 := scalarCompare_snd_le a.modifier u.modifier
  have s4 := setContrib_snd_le a.sdx u.sdx h1
  have s5 := setContrib_snd_le a.cpt u.cpt h2
  omega

/-- AI result with a duplicated secondary diagnosis, for the C7
counterexample. -/
def overAi : CodingResult :=
  { admit_dx := "", pdx := "", sdx := ["Y", "Y"], cpt := [], modifier := "" }

/-- User result agreeing on the duplicated code, for the C7
counterexample. -/
def overUser : CodingResult :=
  { admit_dx := "", pdx := "", sdx := ["Y"], cpt := [], modifier := "" }

/-- Counterexample to claim C7: a duplicated AI code that the user kept
yields numerator 2 over denominator 1, and the returned percentage is 200,
outside the stated 0 to 100 range. -/
theorem claim_C7_counterexample :
    (calculateAccuracy overAi overUser).percentage = 200
    ∧ ¬((calculateAccuracy overAi overUser).percentage ≤ 100) := by
  have h1 : totalFields overAi overUser = 1 := by decide
  have h2 : correctFields overAi overUser = 2 := by decide
  have hp : (calculateAccuracy overAi overUser).percentage = 200 := by
    rw [calculateAccuracy_percentage, h1, h2]
    norm_num
  refine ⟨hp, ?_⟩
  rw [hp]
  norm_num

/-- Claim C7 as amended: when the AI list fields are duplicate-free the
returned percentage lies between 0 and 100 and is an integer number of
hundredths (exactly two decimal places). -/
theorem claim_C7_amended_percentage_range (a u : CodingResult)
    (h1 : a.sdx.Nodup) (h2 : a.cpt.Nodup) :
    0 ≤ (calculateAccuracy a u).percentage
    ∧ (calculateAccuracy a u).percentage ≤ 100
    ∧ ∃ n : ℤ, (calculateAccuracy a u).percentage = (n : ℚ) / 100 := by
  have hct : correctFields a u ≤ totalFields a u := correct_le_total a u h1 h2
  rw [calculateAccuracy_percentage]
  set acc : ℚ := (if 0 < totalFields a u then
      ((correctFields a u : ℚ) / (totalFields a u : ℚ)) * 100
    else 100) with hacc
  have h0 : 0 ≤ acc := by
    rw [hacc]
    split_ifs with hpos
    · positivity
    · norm_num
  have h100 : acc ≤ 100 := by
    rw [hacc]
    split_ifs with hpos
    · have htq : (0 : ℚ) < (totalFields a u : ℚ) := by exact_mod_cast hpos
      have hdiv : ((correctFields a u : ℚ) / (totalFields a u : ℚ)) ≤ 1 :=
        (div_le_one htq).mpr (by exact_mod_cast hct)
      nlinarith [hdiv]
    · norm_num
  have hfl : (0 : ℤ) ≤ ⌊acc * 100 + 1/2⌋ := Int.le_floor.mpr (by push_cast; nlinarith)
  have hfu : ⌊acc * 100 + 1/2⌋ ≤ 10000 := by
    have hb : acc * 100 + 1/2 ≤ (10000 : ℚ) + 1/2 := by nlinarith
    have hmono := Int.floor_le_floor hb
    have hval : ⌊(10000 : ℚ) + 1/2⌋ = 10000 := by norm_num
    omega
  refine ⟨?_, ?_, ⟨⌊acc * 100 + 1/2⌋, rfl⟩⟩
  · have hcast : (0 : ℚ) ≤ ((⌊acc * 100 + 1/2⌋ : ℤ) : ℚ) := by exact_mod_cast hfl
    linarith
  · have hcast : ((⌊acc * 100 + 1/2⌋ : ℤ) : ℚ) ≤ 10000 := by exact_mod_cast hfu
    linarith

/-- AI side of the one-agreement-in-three example. -/
def ex13ai : CodingResult :=
  { admit_dx := "A", pdx := "B", sdx := [], cpt := [], modifier := "C" }

/-- User side of the one-agreement-in-three example. -/
def ex13user : CodingResult :=
  { admit_dx := "A", pdx := "X", sdx := [], cpt := [], modifier := "Y" }

/-- Witness for the amended claim C7 at the rounding example of the spec:
numerator 1 over denominator 3 stays in range and rounds to exactly 33.33. -/
theorem claim_C7_amended_witness :
    0 ≤ (calculateAccuracy ex13ai ex13user).percentage
    ∧ (calculateAccuracy ex13ai ex13user).percentage ≤ 100
    ∧ (calculateAccuracy ex13ai ex13user).percentage = 3333/100 := by
  refine ⟨(claim_C7_amended_percentage_range ex13ai ex13user
            (by decide) (by decide)).1,
          (claim_C7_amended_percentage_range ex13ai ex13user
            (by decide) (by decide)).2.1, ?_⟩
  have h1 : totalFields ex13ai ex13user = 3 := by decide
  have h2 : correctFields ex13ai ex13user = 1 := by decide
  rw [calculateAccuracy_percentage, h1, h2]
  norm_num

/-- Claim C9: a request missing the document key (absent or empty, both
falsy in JS) or missing the corrected result is refused with the 400
error before the engine runs; otherwise the response is exactly the
outcome of the engine call. -/
theorem claim_C9_guard (dk : Option String) (org cor : Option CodingResult) :
    ((dk = none ∨ dk = some "" ∨ cor = none) →
      submitCorrections dk org cor =
        SubmitResponse.badRequest "document_key and corrected data are required")
    ∧ (dk ≠ none → dk ≠ some "" → cor ≠ none →
        submitCorrections dk org cor =
          match calculateAccuracyJS org cor with
          | Except.ok r => SubmitResponse.ok r
          | Except.error _ => SubmitResponse.serverError) := by
  constructor
  · rintro (rfl | rfl | rfl)
    · rfl
    · rfl
    · simp [submitCorrections]
  · intro h1 h2 h3
    obtain ⟨s, rfl⟩ := Option.ne_none_iff_exists'.mp h1
    obtain ⟨c, rfl⟩ := Option.ne_none_iff_exists'.mp h3
    have hs : s ≠ "" := fun h => h2 (by rw [h])
    simp [submitCorrections, isFalsyStr, hs]

/-- Witness for claim C9: the empty request is refused, and a complete
request is answered with the report of the engine. -/
theorem claim_C9_witness :
    submitCorrections none none none =
      SubmitResponse.badRequest "document_key and corrected data are required"
    ∧ submitCorrections (some "doc-1") (some emptyResult) (some emptyResult) =
      SubmitResponse.ok (calculateAccuracy emptyResult emptyResult) := by
  constructor
  · exact (claim_C9_guard none none none).1 (Or.inl rfl)
  · have h := (claim_C9_guard (some "doc-1") (some emptyResult)
      (some emptyResult)).2 (by decide) (by decide) (by decide)
    simpa [calculateAccuracyJS] using h

/-- Claim C10: the engine is total only over object-shaped arguments — a
missing argument makes the first property access throw instead of
degrading to an all-empty result — and the submit-corrections operation
validates only the document key and the corrected result, so a request
omitting the original AI result reaches the engine, which throws, and the
operation answers 500 instead of producing a report. -/
theorem claim_C10_throws_on_missing_argument :
    calculateAccuracyJS none (some emptyResult) = Except.error ()
    ∧ calculateAccuracyJS (some emptyResult) none = Except.error ()
    ∧ (∀ a u : CodingResult,
        calculateAccuracyJS (some a) (some u) =
          Except.ok (calculateAccuracy a u))
    ∧ submitCorrections (some "doc-1") none (some emptyResult) =
        SubmitResponse.serverError := by
  refine ⟨rfl, rfl, fun a u => rfl, ?_⟩
  decide
